import Mathlib

/-
Verification of the hadahana-ai web application's core logic against its
specification.  The repository delegates persistence, authentication and text
generation to external services; the logic embedded here is the code the
repository itself contains:

  * src/context/AuthContext.tsx      - auth-state handling, signup, admin flag
  * src/unnamed/part_000             - service layer, chat-session variant
  * src/unnamed/part_001             - service layer, generateContent variant
  * src/unnamed/part_002             - admin dashboard handlers

Strings are modelled as `List Char` (the characters of a JavaScript string);
external outcomes (API responses, document reads, thrown errors) are explicit
parameters.
-/

/-- Characters of a Lean string literal, used to transcribe the source's
string literals. -/
def str (s : String) : List Char := s.data

/-- JavaScript `a || b` where `a` is a `string | undefined | null` value:
the empty string, `undefined` and `null` are falsy. -/
def jsOrText (a : Option (List Char)) (b : List Char) : List Char :=
  match a with
  | some s => if s.isEmpty then b else s
  | none => b

/-- JavaScript truthiness of a `string | undefined | null` value. -/
def jsTruthyOpt : Option (List Char) → Bool
  | some v => !v.isEmpty
  | none => false

/-- JavaScript `s.split(sep)` for a one-character separator: the list of
(possibly empty) segments between occurrences of `sep`; never empty. -/
def jsSplit (sep : Char) : List Char → List (List Char)
  | [] => [[]]
  | c :: t =>
    if c = sep then [] :: jsSplit sep t
    else
      match jsSplit sep t with
      | [] => [[c]]
      | g :: gs => (c :: g) :: gs

/-- JavaScript `s.replace(pat, "")` for a global literal pattern: scan left to
right; at a match, drop the whole pattern and resume after it; removed text is
not rescanned.  The `Nat` argument is fuel, instantiated with the input's
length by `removeAll`. -/
def removeAllFuel (pat : List Char) : Nat → List Char → List Char
  | 0, s => s
  | _, [] => []
  | n + 1, c :: rest =>
    if pat.isPrefixOf (c :: rest) then removeAllFuel pat n (rest.drop (pat.length - 1))
    else c :: removeAllFuel pat n rest

/-- JavaScript `s.replace(/pat/g, "")` for a non-empty literal pattern. -/
def removeAll (pat s : List Char) : List Char :=
  removeAllFuel pat s.length s

/-- Decidable contiguous-substring test: does `pat` occur inside `l`? -/
def containsSub (pat : List Char) : List Char → Bool
  | [] => pat.isPrefixOf []
  | c :: t => pat.isPrefixOf (c :: t) || containsSub pat t

/-- White-space and line-terminator characters removed by JavaScript
`String.prototype.trim`. -/
def isJsWs (c : Char) : Bool :=
  c == ' ' || c == '\t' || c == '\n' || c == '\r' ||
  c == '\u000B' || c == '\u000C' || c == '\u00A0' || c == '\u1680' ||
  (0x2000 ≤ c.toNat && c.toNat ≤ 0x200A) ||
  c == '\u2028' || c == '\u2029' || c == '\u202F' || c == '\u205F' ||
  c == '\u3000' || c == '\uFEFF'

/-- JavaScript `s.trim()`: drop white space from both ends. -/
def trimJS (l : List Char) : List Char :=
  ((l.dropWhile isJsWs).reverse.dropWhile isJsWs).reverse

/-- True when the string starts with a trimmable white-space character. -/
def startsWithWs : List Char → Bool
  | [] => false
  | c :: _ => isJsWs c

/-- True when the string ends with a trimmable white-space character. -/
def endsWithWs (l : List Char) : Bool := startsWithWs l.reverse

/- ### Data model -/

/-- Singleton document `settings/global_config`: `{ geminiApiKey?: string }`. -/
structure GlobalConfig where
  geminiApiKey : Option (List Char)
deriving DecidableEq

/-- Session object delivered by the external auth provider
(`FirebaseUser`): `displayName` and `email` may be null. -/
structure FirebaseUser where
  uid : List Char
  displayName : Option (List Char)
  email : Option (List Char)

/-- Local user record derived in AuthContext.tsx. -/
structure User where
  uid : List Char
  name : List Char
  email : List Char
  isAdmin : Bool

/-- Profile document written at signup (`users/{uid}`). -/
structure UserDoc where
  uid : List Char
  name : List Char
  email : List Char
  joinedAt : List Char
deriving DecidableEq

/-- State of the two external stores touched by signup: registered auth
accounts and the `users` collection. -/
structure BackendState where
  authAccounts : List (List Char)
  userDocs : List (List Char × UserDoc)
deriving DecidableEq

/-- Conversation turn kept by the chat UI (`ChatMessage` in src/types). -/
structure ChatMessage where
  role : List Char
  text : List Char
  images : Option (List (List Char))

/-- `HoroscopeData`: three free-text birth fields. -/
structure HoroscopeData where
  dob : List Char
  tob : List Char
  pob : List Char

/-- `PorondamData`: four free-text compatibility fields. -/
structure PorondamData where
  groomName : List Char
  groomNakshatra : List Char
  brideName : List Char
  brideNakshatra : List Char

/-- One part of a generation-API request: text, or inline base64 image data
with a MIME type (the payload is absent when `split(',')[1]` is undefined). -/
inductive GenPart where
  | text (s : List Char)
  | inlineData (mimeType : List Char) (payload : Option (List Char))
deriving DecidableEq

/-- One role-tagged turn of a generation-API request. -/
structure GenContent where
  role : List Char
  parts : List GenPart
deriving DecidableEq

/- ### AuthContext.tsx -/

/-- The one hard-coded admin address (AuthContext.tsx line 40). -/
def ADMIN_EMAIL : List Char := str "nikila2008@gmail.com"

/-- JavaScript `email?.split('@')[0]`: undefined when `email` is null,
otherwise the part of the email before the first `@`. -/
def emailLocalPart (email : Option (List Char)) : Option (List Char) :=
  email.map (fun e => (jsSplit '@' e).headD [])

/-- The `User` record built in the `onAuthStateChanged` callback
(AuthContext.tsx lines 40-47): `isAdmin` is recomputed by strict string
equality against `ADMIN_EMAIL`; the name falls back from `displayName` to the
email's local part to `"User"`. -/
def deriveUser (fu : FirebaseUser) : User :=
  { uid := fu.uid
    name := jsOrText fu.displayName (jsOrText (emailLocalPart fu.email) (str "User"))
    email := jsOrText fu.email []
    isAdmin := fu.email == some ADMIN_EMAIL }

/-- One auth-state change event (AuthContext.tsx lines 36-52): the new `user`
state is a function of the event's session alone; the previous state is not
consulted. -/
def authStateChanged (_prev : Option User) (ev : Option FirebaseUser) : Option User :=
  ev.map deriveUser

/-- The `signup` handler (AuthContext.tsx lines 62-73): register the
credential with the external auth provider, then write the profile document.
`createResult` is the provider's outcome (error, or the new account's uid);
`writeError` is the document write's thrown error, if any.  Returns the
resulting backend state and the error `signup` rejects with, if any. -/
def signup (st : BackendState) (name email joinedAt : List Char)
    (createResult : Except (List Char) (List Char)) (writeError : Option (List Char)) :
    BackendState × Option (List Char) :=
  match createResult with
  | Except.error e => (st, some e)
  | Except.ok uid =>
    let st1 : BackendState := ⟨uid :: st.authAccounts, st.userDocs⟩
    match writeError with
    | some e => (st1, some e)
    | none => (⟨st1.authAccounts, (uid, ⟨uid, name, email, joinedAt⟩) :: st1.userDocs⟩, none)

/- ### Service layer (src/unnamed/part_000 and src/unnamed/part_001) -/

/-- Key resolution of `getAIClient` (part_000 lines 12-27, part_001 lines
12-27, identical logic): start from the first truthy of two environment
variables; if the config document read succeeds, the document exists and its
`geminiApiKey` field is truthy, that field overrides; a read failure is
swallowed; the final key is `apiKey || ""`. -/
def envKeyDefault (primaryEnv apiKeyEnv : Option (List Char)) : Option (List Char) :=
  if jsTruthyOpt primaryEnv then primaryEnv else apiKeyEnv

/-- The key actually handed to the generation client by `getAIClient`. -/
def getAIClientKey (primaryEnv apiKeyEnv : Option (List Char))
    (cfgDoc : Option GlobalConfig) (readFails : Bool) : List Char :=
  let base := envKeyDefault primaryEnv apiKeyEnv
  let key :=
    if readFails then base
    else
      match cfgDoc with
      | some cfg => if jsTruthyOpt cfg.geminiApiKey then cfg.geminiApiKey else base
      | none => base
  jsOrText key []

/-- The environment default as a string: first truthy environment variable,
or the empty string when neither yields a value. -/
def envDefaultStr (primaryEnv apiKeyEnv : Option (List Char)) : List Char :=
  jsOrText (envKeyDefault primaryEnv apiKeyEnv) []

/-- Base64 payload extracted from a data-URI string: `img.split(',')[1]`
(part_000 lines 97, 131, 175; part_001 lines 92, 106, 180). -/
def dataUriPayload (s : List Char) : Option (List Char) :=
  (jsSplit ',' s)[1]?

/-- Inline image part built for every attached image. -/
def imagePart (img : List Char) : GenPart :=
  GenPart.inlineData (str "image/jpeg") (dataUriPayload img)

/-- Sinhala-formal language directive of `analyzeHoroscopeAdvanced`
(part_000 line 113, part_001 line 113). -/
def siDirectiveAdvanced : List Char :=
  str "භාෂාව: කරුණාකර 'පිරිසිදු සිංහල' භාෂාවෙන් (Formal Sinhala) පිළිතුරු දෙන්න."

/-- English language directive of `analyzeHoroscopeAdvanced`
(part_000 line 114, part_001 line 114). -/
def enDirectiveAdvanced : List Char :=
  str "Language: Please respond in English, but maintain the highly respectful, spiritual, and professional 'Guru' tone."

/-- `langInstruction` of `analyzeHoroscopeAdvanced`: Sinhala for `"si"`,
English for every other language value. -/
def langInstructionAdvanced (outputLang : List Char) : List Char :=
  if outputLang = str "si" then siDirectiveAdvanced else enDirectiveAdvanced

/-- `langInstruction` of the three single-shot functions:
`lang === 'si' ? "Sinhala" : "English"`. -/
def langInstructionSimple (lang : List Char) : List Char :=
  if lang = str "si" then str "Sinhala" else str "English"

/-- `systemContext` line injected into the advanced chat turn. -/
def systemContext (dateString timeString : List Char) : List Char :=
  str "[SYSTEM_DATA]: CURRENT_DATE = " ++ dateString ++ str ", CURRENT_TIME = " ++ timeString

/-- The composed text block of the advanced chat turn: system data, language
directive and the user's current message (part_000 line 122, part_001
line 123, identical template). -/
def advancedComposedText (userMessage outputLang dateString timeString : List Char) : List Char :=
  systemContext dateString timeString ++ str "\n\n" ++ langInstructionAdvanced outputLang ++
    str "\n\nපරිශීලකයාගේ වත්මන් පණිවිඩය: " ++ userMessage

/-- Prompt of `getHoroscopeReading` (part_000 line 148, part_001 line 152,
identical template). -/
def getHoroscopeReadingPrompt (data : HoroscopeData) (lang : List Char) : List Char :=
  str "Language: " ++ langInstructionSimple lang ++
    str "\n\nPerform a full horoscope reading based on:\nDOB: " ++ data.dob ++
    str "\nTime: " ++ data.tob ++ str "\nPlace: " ++ data.pob ++
    str "\n\nIMPORTANT: Respond in valid HTML using the specified classes."

/-- Prompt of `getPorondamReading` (part_000 line 160, part_001 line 164,
identical template). -/
def getPorondamReadingPrompt (data : PorondamData) (lang : List Char) : List Char :=
  str "Language: " ++ langInstructionSimple lang ++
    str "\n\nCheck Porondam compatibility for:\nGroom: " ++ data.groomName ++
    str " (" ++ data.groomNakshatra ++ str ")\nBride: " ++ data.brideName ++
    str " (" ++ data.brideNakshatra ++
    str ")\n\nIMPORTANT: Respond in valid HTML using the specified classes."

/-- Prompt of `analyzeAncientManuscript` (part_000 line 172, part_001
line 181, identical template). -/
def manuscriptPrompt (lang : List Char) : List Char :=
  str "Language: " ++ langInstructionSimple lang ++
    str "\n\nAnalyze this manuscript.\nIMPORTANT: Respond in valid HTML using the specified classes."

/-- Request parts of `analyzeAncientManuscript`: the image part, then the
text prompt (part_000 lines 174-177, part_001 lines 178-183). -/
def manuscriptRequestParts (image lang : List Char) : List GenPart :=
  [imagePart image, GenPart.text (manuscriptPrompt lang)]

/-- The markdown fence markers stripped from every response. -/
def ticks : List Char := str "```"

/-- The html-tagged opening fence marker, stripped first. -/
def fenceHtml : List Char := str "```html"

/-- Post-processing applied to every response text:
`.replace(/```html/g, '').replace(/```/g, '')`. -/
def cleanResponse (s : List Char) : List Char :=
  removeAll ticks (removeAll fenceHtml s)

namespace part_001

/-- History turn sent by part_001's `analyzeHoroscopeAdvanced` (lines 85-96):
the message role as stored, a text part, then one inline part per image. -/
def historyContent (msg : ChatMessage) : GenContent :=
  ⟨msg.role, GenPart.text msg.text :: (msg.images.getD []).map imagePart⟩

/-- The full `contents` array sent by part_001's `analyzeHoroscopeAdvanced`
(lines 85-129): mapped history, then one user turn holding any current
images followed by the composed text part. -/
def buildContents (images : List (List Char)) (userMessage : List Char)
    (history : List ChatMessage) (outputLang dateString timeString : List Char) :
    List GenContent :=
  (history.map historyContent) ++
    [⟨str "user",
      images.map imagePart ++
        [GenPart.text (advancedComposedText userMessage outputLang dateString timeString)]⟩]

/-- Fallback text of part_001's `analyzeHoroscopeAdvanced` (line 143). -/
def fallbackAdvanced : List Char :=
  str "සන්නිවේදනයේ දෝෂයක් ඇති විය. කරුණාකර මඳ වේලාවකින් නැවත උත්සාහ කරන්න."

/-- Return value of part_001's `analyzeHoroscopeAdvanced` as a function of the
API's response text (lines 142-146): `response.text || fallback`, then fence
stripping. -/
def analyzeHoroscopeAdvancedResult (respText : Option (List Char)) : List Char :=
  cleanResponse (jsOrText respText fallbackAdvanced)

/-- Return value of part_001's `getHoroscopeReading` (line 158). -/
def getHoroscopeReadingResult (respText : Option (List Char)) : List Char :=
  cleanResponse (jsOrText respText (str "Reading failed."))

/-- Return value of part_001's `getPorondamReading` (line 170). -/
def getPorondamReadingResult (respText : Option (List Char)) : List Char :=
  cleanResponse (jsOrText respText (str "Compatibility check failed."))

/-- Return value of part_001's `analyzeAncientManuscript` (line 186). -/
def analyzeAncientManuscriptResult (respText : Option (List Char)) : List Char :=
  cleanResponse (jsOrText respText (str "Manuscript analysis failed."))

end part_001

namespace part_000

/-- Chat history sent by part_000's `analyzeHoroscopeAdvanced` (lines 90-101):
the role is normalised to `user`/`model`. -/
def chatHistoryContents (history : List ChatMessage) : List GenContent :=
  history.map (fun msg =>
    ⟨if msg.role = str "user" then str "user" else str "model",
      GenPart.text msg.text :: (msg.images.getD []).map imagePart⟩)

/-- The new message parts sent by part_000's `analyzeHoroscopeAdvanced`
(lines 121-134): the composed text part first, then one inline part per
current image. -/
def currentMessageParts (images : List (List Char))
    (userMessage outputLang dateString timeString : List Char) : List GenPart :=
  GenPart.text (advancedComposedText userMessage outputLang dateString timeString) ::
    images.map imagePart

/-- Return value of part_000's `analyzeHoroscopeAdvanced` (lines 136-140):
`response.text()` with fence stripping and no fallback substitution. -/
def analyzeHoroscopeAdvancedResult (respText : List Char) : List Char :=
  cleanResponse respText

/-- Return value of part_000's `getHoroscopeReading` (line 152). -/
def getHoroscopeReadingResult (respText : List Char) : List Char :=
  cleanResponse respText

/-- Return value of part_000's `getPorondamReading` (line 164). -/
def getPorondamReadingResult (respText : List Char) : List Char :=
  cleanResponse respText

/-- Return value of part_000's `analyzeAncientManuscript` (line 180). -/
def analyzeAncientManuscriptResult (respText : List Char) : List Char :=
  cleanResponse respText

end part_000

/- ### Admin dashboard (src/unnamed/part_002) -/

/-- Observable actions of an admin dashboard handler. -/
inductive AdminEffect where
  | confirmDialog (msg : List Char)
  | alertBox (msg : List Char)
  | storeWrite (path : List Char) (d : UserDoc)
  | storeDelete (path : List Char)
  | authAccountDelete (uid : List Char)
deriving DecidableEq

/-- True for effects that only show a message box. -/
def isMessageBoxOnly : AdminEffect → Bool
  | AdminEffect.confirmDialog _ => true
  | AdminEffect.alertBox _ => true
  | _ => false

/-- Interpretation of a handler's effects over the `users` collection:
dialogs change nothing; writes and deletes update the matching document. -/
def runAdminEffects (docs : List (List Char × UserDoc)) : List AdminEffect → List (List Char × UserDoc)
  | [] => docs
  | AdminEffect.storeWrite p d :: t =>
    runAdminEffects ((p, d) :: docs.filter (fun kv => kv.1 ≠ p)) t
  | AdminEffect.storeDelete p :: t =>
    runAdminEffects (docs.filter (fun kv => kv.1 ≠ p)) t
  | _ :: t => runAdminEffects docs t

/-- The `handleDeleteUser` handler (part_002 lines 87-91): a confirm dialog,
then, if confirmed, an instructional alert; nothing else. -/
def handleDeleteUser (email : List Char) (confirmed : Bool) : List AdminEffect :=
  let q := str "This will only remove user " ++ email ++
    str " from the database listing, not the Auth system. Proceed?"
  if confirmed then
    [AdminEffect.confirmDialog q,
      AdminEffect.alertBox (str "User deletion from Auth requires Admin SDK. Please disable account in Firebase Console.")]
  else [AdminEffect.confirmDialog q]

/-- The value `handleSaveGeminiKey` (part_002 lines 45-59) writes to the
config document: nothing when the trimmed input is falsy, otherwise the
trimmed input. -/
def geminiKeyWrite (newGeminiKey : List Char) : Option (List Char) :=
  if (trimJS newGeminiKey).isEmpty then none else some (trimJS newGeminiKey)

/-- Effect of `handleSaveGeminiKey` on the singleton config document
(`setDoc` with `merge: true` on the one modelled field). -/
def handleSaveGeminiKey (cfg : Option GlobalConfig) (newGeminiKey : List Char) :
    Option GlobalConfig :=
  match geminiKeyWrite newGeminiKey with
  | none => cfg
  | some v => some ⟨some v⟩

/- ### Helper lemmas -/

theorem jsSplit_ne_nil (sep : Char) : ∀ l : List Char, jsSplit sep l ≠ []
  | [] => by simp [jsSplit]
  | c :: t => by
    simp only [jsSplit]
    split
    · exact List.cons_ne_nil _ _
    · split <;> exact List.cons_ne_nil _ _

theorem jsSplit_head (sep : Char) : ∀ l : List Char,
    (jsSplit sep l).head? = some (l.takeWhile (fun c => c != sep))
  | [] => by simp [jsSplit]
  | c :: t => by
    have ih := jsSplit_head sep t
    by_cases h : c = sep
    · subst h
      simp [jsSplit, List.takeWhile_cons]
    · rcases he : jsSplit sep t with _ | ⟨g, gs⟩
      · exact absurd he (jsSplit_ne_nil sep t)
      · rw [he] at ih
        simp only [List.head?_cons, Option.some.injEq] at ih
        simp [jsSplit, he, h, List.takeWhile_cons, ih]

theorem jsSplit_append (sep : Char) : ∀ pre post : List Char,
    pre.all (fun c => c != sep) = true →
    jsSplit sep (pre ++ sep :: post) = pre :: jsSplit sep post
  | [], post => by simp [jsSplit]
  | c :: pr, post => by
    intro hall
    simp only [List.all_cons, Bool.and_eq_true, bne_iff_ne, ne_eq] at hall
    obtain ⟨hc, hall⟩ := hall
    have ih := jsSplit_append sep pr post hall
    simp only [List.cons_append, jsSplit, List.append_eq]
    rw [if_neg hc, ih]

theorem jsSplit_no_sep (sep : Char) : ∀ l : List Char,
    l.all (fun c => c != sep) = true → jsSplit sep l = [l]
  | [] => by simp [jsSplit]
  | c :: t => by
    intro hall
    simp only [List.all_cons, Bool.and_eq_true, bne_iff_ne, ne_eq] at hall
    obtain ⟨hc, hall⟩ := hall
    have ih := jsSplit_no_sep sep t hall
    simp only [jsSplit]
    rw [if_neg hc, ih]

theorem ticks_eq : ticks = ['`', '`', '`'] := rfl

theorem removeTicks_head (n : Nat) (s : List Char)
    (h : (removeAllFuel ticks n s).head? = some '`') : s.head? = some '`' := by
  match n, s with
  | 0, s =>
    simp only [removeAllFuel] at h
    exact h
  | _ + 1, [] => simp [removeAllFuel] at h
  | m + 1, c :: rest =>
    by_cases hp : ticks.isPrefixOf (c :: rest)
    · have hpre := List.isPrefixOf_iff_prefix.mp hp
      rw [ticks_eq] at hpre
      rcases hpre with ⟨t, ht⟩
      injection ht with h1 _
      rw [← h1]
      rfl
    · simp only [removeAllFuel, if_neg hp, List.head?_cons, Option.some.injEq] at h
      rw [h]
      rfl

theorem removeTicks_two (n : Nat) (s w : List Char)
    (h : removeAllFuel ticks n s = '`' :: '`' :: w) : ∃ r, s = '`' :: '`' :: r := by
  match n, s with
  | 0, s =>
    simp only [removeAllFuel] at h
    exact ⟨w, h⟩
  | _ + 1, [] => simp [removeAllFuel] at h
  | m + 1, c :: rest =>
    by_cases hp : ticks.isPrefixOf (c :: rest)
    · have hpre := List.isPrefixOf_iff_prefix.mp hp
      rw [ticks_eq] at hpre
      rcases hpre with ⟨t, ht⟩
      injection ht with h1 h2
      exact ⟨'`' :: t, by rw [← h1, ← h2]; rfl⟩
    · simp only [removeAllFuel, if_neg hp] at h
      injection h with h1 h2
      have hh : (removeAllFuel ticks m rest).head? = some '`' := by rw [h2]; rfl
      have hr := removeTicks_head m rest hh
      rcases rest with _ | ⟨r0, rest'⟩
      · simp at hr
      · simp only [List.head?_cons, Option.some.injEq] at hr
        exact ⟨rest', by rw [h1, hr]⟩

theorem removeTicks_noTriple : ∀ n : Nat, ∀ s : List Char, s.length ≤ n →
    ¬ ticks <:+: removeAllFuel ticks n s := by
  intro n
  induction n with
  | zero =>
    intro s hs hinf
    have hnil : s = [] := List.length_eq_zero.mp (Nat.le_zero.mp hs)
    subst hnil
    simp [removeAllFuel, List.infix_nil, ticks_eq] at hinf
  | succ m ih =>
    intro s hs hinf
    rcases s with _ | ⟨c, rest⟩
    · simp [removeAllFuel, List.infix_nil, ticks_eq] at hinf
    · have hrest : rest.length ≤ m := by
        simp only [List.length_cons] at hs
        omega
      by_cases hp : ticks.isPrefixOf (c :: rest)
      · simp only [removeAllFuel, if_pos hp] at hinf
        have hlen : (rest.drop (ticks.length - 1)).length ≤ m := by
          rw [List.length_drop]
          omega
        exact ih _ hlen hinf
      · simp only [removeAllFuel, if_neg hp] at hinf
        rcases List.infix_cons_iff.mp hinf with hpre | hinf'
        · rw [ticks_eq] at hpre
          rcases List.cons_prefix_cons.mp hpre with ⟨hc, hpre2⟩
          rcases hpre2 with ⟨t, ht⟩
          obtain ⟨r, hr⟩ := removeTicks_two m rest t ht.symm
          exact hp (List.isPrefixOf_iff_prefix.mpr ⟨r, by rw [hr, ← hc]; rfl⟩)
        · exact ih rest hrest hinf'

theorem removeAll_ticks_noTriple (s : List Char) : ¬ ticks <:+: removeAll ticks s :=
  removeTicks_noTriple s.length s le_rfl

theorem ticks_infix_fenceHtml : ticks <:+: fenceHtml :=
  ⟨[], str "html", rfl⟩

theorem cleanResponse_noTicks (s : List Char) : ¬ ticks <:+: cleanResponse s :=
  removeAll_ticks_noTriple _

theorem cleanResponse_noFence (s : List Char) : ¬ fenceHtml <:+: cleanResponse s :=
  fun h => cleanResponse_noTicks s (ticks_infix_fenceHtml.trans h)

theorem containsSub_iff (pat : List Char) : ∀ l : List Char,
    containsSub pat l = true ↔ pat <:+: l
  | [] => by
    simp [containsSub, List.isPrefixOf_iff_prefix, List.infix_nil, List.prefix_nil]
  | c :: t => by
    simp [containsSub, List.isPrefixOf_iff_prefix, containsSub_iff pat t,
      List.infix_cons_iff]

theorem containsSub_eq_false (pat l : List Char) (h : ¬ pat <:+: l) :
    containsSub pat l = false := by
  cases hb : containsSub pat l
  · rfl
  · exact absurd ((containsSub_iff pat l).mp hb) h

theorem cleanResponse_noMarkers (s : List Char) :
    containsSub fenceHtml (cleanResponse s) = false ∧
    containsSub ticks (cleanResponse s) = false :=
  ⟨containsSub_eq_false _ _ (cleanResponse_noFence s),
   containsSub_eq_false _ _ (cleanResponse_noTicks s)⟩

theorem startsWithWs_dropWhile (l : List Char) :
    startsWithWs (l.dropWhile isJsWs) = false := by
  induction l with
  | nil => rfl
  | cons c t ih =>
    rw [List.dropWhile_cons]
    cases hc : isJsWs c
    · rw [if_neg (by simp)]
      simp [startsWithWs, hc]
    · rw [if_pos rfl]
      exact ih

theorem startsWithWs_of_prefix {m l : List Char} (h : m <+: l)
    (hl : startsWithWs l = false) : startsWithWs m = false := by
  rcases m with _ | ⟨a, t⟩
  · rfl
  · rcases h with ⟨u, hu⟩
    rw [← hu] at hl
    simpa [startsWithWs] using hl

theorem trimJS_prefix_dropWhile (l : List Char) :
    trimJS l <+: l.dropWhile isJsWs := by
  unfold trimJS
  have h1 : List.dropWhile isJsWs (l.dropWhile isJsWs).reverse <:+ (l.dropWhile isJsWs).reverse :=
    List.dropWhile_suffix _
  have h2 := List.reverse_prefix.mpr h1
  rwa [List.reverse_reverse] at h2

theorem trimJS_startsWithWs (l : List Char) : startsWithWs (trimJS l) = false :=
  startsWithWs_of_prefix (trimJS_prefix_dropWhile l) (startsWithWs_dropWhile l)

theorem trimJS_endsWithWs (l : List Char) : endsWithWs (trimJS l) = false := by
  unfold endsWithWs trimJS
  rw [List.reverse_reverse]
  exact startsWithWs_dropWhile _

/- ### Claim theorems -/

/-- C1: for every auth-state change event carrying a session, the derived
user's `isAdmin` flag is true if and only if the session's email equals the
single hard-coded admin address by exact, case-sensitive string comparison;
the state produced for an event is a function of the event alone and never of
previously stored user state. -/
theorem c1_isAdmin_exact_and_fresh (prev prev' : Option User) (ev : Option FirebaseUser)
    (fu : FirebaseUser) :
    authStateChanged prev ev = authStateChanged prev' ev ∧
    ((deriveUser fu).isAdmin = true ↔ fu.email = some (str "nikila2008@gmail.com")) := by
  refine ⟨rfl, ?_⟩
  simp [deriveUser, ADMIN_EMAIL]

/-- C2: whatever text the external generation API returns (or fails to
return), the string each of the four invocation functions returns, in both
service-layer variants, contains neither the literal marker three
backticks followed by html nor the literal marker three backticks. -/
theorem c2_no_fence_markers (r1 r2 r3 r4 : Option (List Char)) (s1 s2 s3 s4 : List Char) :
    (containsSub fenceHtml (part_001.analyzeHoroscopeAdvancedResult r1) = false ∧
      containsSub ticks (part_001.analyzeHoroscopeAdvancedResult r1) = false) ∧
    (containsSub fenceHtml (part_001.getHoroscopeReadingResult r2) = false ∧
      containsSub ticks (part_001.getHoroscopeReadingResult r2) = false) ∧
    (containsSub fenceHtml (part_001.getPorondamReadingResult r3) = false ∧
      containsSub ticks (part_001.getPorondamReadingResult r3) = false) ∧
    (containsSub fenceHtml (part_001.analyzeAncientManuscriptResult r4) = false ∧
      containsSub ticks (part_001.analyzeAncientManuscriptResult r4) = false) ∧
    (containsSub fenceHtml (part_000.analyzeHoroscopeAdvancedResult s1) = false ∧
      containsSub ticks (part_000.analyzeHoroscopeAdvancedResult s1) = false) ∧
    (containsSub fenceHtml (part_000.getHoroscopeReadingResult s2) = false ∧
      containsSub ticks (part_000.getHoroscopeReadingResult s2) = false) ∧
    (containsSub fenceHtml (part_000.getPorondamReadingResult s3) = false ∧
      containsSub ticks (part_000.getPorondamReadingResult s3) = false) ∧
    (containsSub fenceHtml (part_000.analyzeAncientManuscriptResult s4) = false ∧
      containsSub ticks (part_000.analyzeAncientManuscriptResult s4) = false) :=
  ⟨cleanResponse_noMarkers _, cleanResponse_noMarkers _, cleanResponse_noMarkers _,
    cleanResponse_noMarkers _, cleanResponse_noMarkers _, cleanResponse_noMarkers _,
    cleanResponse_noMarkers _, cleanResponse_noMarkers _⟩

/-- C3: the credential resolver returns the config document's `geminiApiKey`
field exactly when the read succeeds, the document exists and the field is a
non-empty string; when the document is missing, the field absent or empty, or
the read fails, it returns the environment default, which is the first truthy
of the two candidate environment variables or the empty string when neither
yields a value. -/
theorem c3_key_resolution (primaryEnv apiKeyEnv : Option (List Char))
    (cfgDoc : Option GlobalConfig) (k a b : List Char) :
    (getAIClientKey primaryEnv apiKeyEnv (some ⟨some k⟩) false =
      if k = [] then envDefaultStr primaryEnv apiKeyEnv else k) ∧
    getAIClientKey primaryEnv apiKeyEnv (some ⟨none⟩) false =
      envDefaultStr primaryEnv apiKeyEnv ∧
    getAIClientKey primaryEnv apiKeyEnv none false = envDefaultStr primaryEnv apiKeyEnv ∧
    getAIClientKey primaryEnv apiKeyEnv cfgDoc true = envDefaultStr primaryEnv apiKeyEnv ∧
    envDefaultStr none none = [] ∧
    envDefaultStr (some a) none = a ∧
    envDefaultStr none (some b) = b ∧
    envDefaultStr (some a) (some b) = (if a = [] then b else a) := by
  refine ⟨?_, rfl, rfl, rfl, rfl, ?_, ?_, ?_⟩
  · cases k <;>
      simp [getAIClientKey, envDefaultStr, envKeyDefault, jsTruthyOpt, jsOrText]
  · cases a <;> simp [envDefaultStr, envKeyDefault, jsTruthyOpt, jsOrText]
  · cases b <;> simp [envDefaultStr, envKeyDefault, jsTruthyOpt, jsOrText]
  · cases a <;> cases b <;> simp [envDefaultStr, envKeyDefault, jsTruthyOpt, jsOrText]

/-- C4: with language value "si" every user prompt contains its function's
fixed Sinhala directive string, and with any other language value the fixed
English directive string: the advanced chat prompt embeds the Sinhala-formal
paragraph or the English Guru-tone paragraph, and each single-shot prompt
embeds the "Sinhala" or "English" directive. -/
theorem c4_language_directive (outputLang userMessage dateString timeString : List Char)
    (hd : HoroscopeData) (pd : PorondamData) :
    (if outputLang = str "si" then siDirectiveAdvanced else enDirectiveAdvanced) <:+:
      advancedComposedText userMessage outputLang dateString timeString ∧
    (if outputLang = str "si" then str "Sinhala" else str "English") <:+:
      getHoroscopeReadingPrompt hd outputLang ∧
    (if outputLang = str "si" then str "Sinhala" else str "English") <:+:
      getPorondamReadingPrompt pd outputLang ∧
    (if outputLang = str "si" then str "Sinhala" else str "English") <:+:
      manuscriptPrompt outputLang := by
  refine ⟨?_, ?_, ?_, ?_⟩
  · exact ⟨systemContext dateString timeString ++ str "\n\n",
      str "\n\nපරිශීලකයාගේ වත්මන් පණිවිඩය: " ++ userMessage,
      by simp [advancedComposedText, langInstructionAdvanced, List.append_assoc]⟩
  · exact ⟨str "Language: ",
      str "\n\nPerform a full horoscope reading based on:\nDOB: " ++ hd.dob ++
        str "\nTime: " ++ hd.tob ++ str "\nPlace: " ++ hd.pob ++
        str "\n\nIMPORTANT: Respond in valid HTML using the specified classes.",
      by simp [getHoroscopeReadingPrompt, langInstructionSimple, List.append_assoc]⟩
  · exact ⟨str "Language: ",
      str "\n\nCheck Porondam compatibility for:\nGroom: " ++ pd.groomName ++
        str " (" ++ pd.groomNakshatra ++ str ")\nBride: " ++ pd.brideName ++
        str " (" ++ pd.brideNakshatra ++
        str ")\n\nIMPORTANT: Respond in valid HTML using the specified classes.",
      by simp [getPorondamReadingPrompt, langInstructionSimple, List.append_assoc]⟩
  · exact ⟨str "Language: ",
      str "\n\nAnalyze this manuscript.\nIMPORTANT: Respond in valid HTML using the specified classes.",
      by simp [manuscriptPrompt, langInstructionSimple, List.append_assoc]⟩

/-- C5 counterexample: in the chat-session variant (src/unnamed/part_000) the
functions apply no fallback: when the external API yields no text the cleaned
empty string is returned, not a fixed non-empty fallback string. -/
theorem c5_no_fallback_counterexample :
    part_000.analyzeHoroscopeAdvancedResult [] = [] := rfl

/-- C5 amended: in the generateContent variant (src/unnamed/part_001) each of
the four invocation functions returns its fixed non-empty fallback string when
the API returns no text (absent or empty), while in the chat-session variant
(src/unnamed/part_000) each function returns the cleaned response text with no
fallback substitution. -/
theorem c5_fallback_amended (s : List Char) :
    part_001.analyzeHoroscopeAdvancedResult none = part_001.fallbackAdvanced ∧
    part_001.analyzeHoroscopeAdvancedResult (some []) = part_001.fallbackAdvanced ∧
    part_001.fallbackAdvanced ≠ [] ∧
    part_001.getHoroscopeReadingResult none = str "Reading failed." ∧
    part_001.getHoroscopeReadingResult (some []) = str "Reading failed." ∧
    str "Reading failed." ≠ ([] : List Char) ∧
    part_001.getPorondamReadingResult none = str "Compatibility check failed." ∧
    part_001.getPorondamReadingResult (some []) = str "Compatibility check failed." ∧
    str "Compatibility check failed." ≠ ([] : List Char) ∧
    part_001.analyzeAncientManuscriptResult none = str "Manuscript analysis failed." ∧
    part_001.analyzeAncientManuscriptResult (some []) = str "Manuscript analysis failed." ∧
    str "Manuscript analysis failed." ≠ ([] : List Char) ∧
    part_000.analyzeHoroscopeAdvancedResult s = cleanResponse s ∧
    part_000.getHoroscopeReadingResult s = cleanResponse s ∧
    part_000.getPorondamReadingResult s = cleanResponse s ∧
    part_000.analyzeAncientManuscriptResult s = cleanResponse s :=
  ⟨rfl, rfl, by decide, rfl, rfl, by decide, rfl, rfl, by decide,
    rfl, rfl, by decide, rfl, rfl, rfl, rfl⟩

/-- C6: with an empty history and no attached images, the advanced analysis
sends exactly one user-role turn whose parts are a single text part holding
the composed block (system data, language directive, user message) and no
image parts, in both service-layer variants. -/
theorem c6_single_user_turn (userMessage outputLang dateString timeString : List Char) :
    part_001.buildContents [] userMessage [] outputLang dateString timeString =
      [⟨str "user",
        [GenPart.text (advancedComposedText userMessage outputLang dateString timeString)]⟩] ∧
    part_000.chatHistoryContents [] = [] ∧
    part_000.currentMessageParts [] userMessage outputLang dateString timeString =
      [GenPart.text (advancedComposedText userMessage outputLang dateString timeString)] :=
  ⟨rfl, rfl, rfl⟩

/-- C7: signup registers the credential first and only then writes the profile
document; when the document write throws after account creation succeeded,
signup rejects with that same error, the auth account remains created, and the
profile documents are exactly as before (in particular, a uid absent before is
still absent). -/
theorem c7_signup_partial_failure (st : BackendState) (name email joinedAt uid e : List Char) :
    signup st name email joinedAt (Except.ok uid) (some e) =
      (⟨uid :: st.authAccounts, st.userDocs⟩, some e) ∧
    signup st name email joinedAt (Except.error e) none = (st, some e) ∧
    signup st name email joinedAt (Except.ok uid) none =
      (⟨uid :: st.authAccounts, (uid, ⟨uid, name, email, joinedAt⟩) :: st.userDocs⟩, none) ∧
    (st.userDocs.all (fun kv => kv.1 != uid) = true →
      ((signup st name email joinedAt (Except.ok uid) (some e)).1.userDocs.all
        (fun kv => kv.1 != uid)) = true) :=
  ⟨rfl, rfl, rfl, fun h => h⟩

/-- C8: the admin delete-user action only shows a confirmation dialog and,
when confirmed, an instructional alert: every effect it emits is a message
box, and interpreting its effects leaves the profile documents unchanged. -/
theorem c8_delete_user_message_only (email : List Char) (confirmed : Bool)
    (docs : List (List Char × UserDoc)) :
    runAdminEffects docs (handleDeleteUser email confirmed) = docs ∧
    (handleDeleteUser email confirmed).all isMessageBoxOnly = true := by
  cases confirmed
  · exact ⟨rfl, rfl⟩
  · exact ⟨rfl, rfl⟩

/-- C9: the admin save action writes only trimmed, non-empty key values: when
the trimmed input is empty the handler returns without writing, and any value
it does write equals the trimmed input, is non-empty, and carries no leading
or trailing white space. -/
theorem c9_saved_key_trimmed (cfg : Option GlobalConfig) (input v : List Char) :
    (trimJS input = [] → handleSaveGeminiKey cfg input = cfg) ∧
    (geminiKeyWrite input = some v →
      v ≠ [] ∧ startsWithWs v = false ∧ endsWithWs v = false ∧ v = trimJS input) := by
  constructor
  · intro h
    simp [handleSaveGeminiKey, geminiKeyWrite, h]
  · intro h
    unfold geminiKeyWrite at h
    by_cases he : (trimJS input).isEmpty = true
    · rw [if_pos he] at h
      exact absurd h (by simp)
    · rw [if_neg he] at h
      have hv : v = trimJS input := (Option.some.inj h).symm
      subst hv
      refine ⟨?_, trimJS_startsWithWs input, trimJS_endsWithWs input, rfl⟩
      intro hnil
      exact he (by simp [hnil])

/-- C10 counterexample: for the image string "a,b,c" the code sends payload
"b", the segment between the first and second commas, not the substring "b,c"
after the first comma that the claim states. -/
theorem c10_payload_counterexample :
    imagePart (str "a,b,c") = GenPart.inlineData (str "image/jpeg") (some (str "b")) ∧
    some (str "b") ≠ some (str "b,c") :=
  ⟨rfl, by decide⟩

/-- C10 amended: for every attached image string, the inline payload sent to
the external API is the comma-separated segment between the first and second
commas of the string (the whole remainder when no second comma exists), and an
image string containing no comma yields an absent payload field rather than an
error; a well-formed data URI therefore contributes exactly its base64 body. -/
theorem c10_payload_amended (pre post : List Char) :
    (pre.all (fun c => c != ',') = true →
      imagePart (pre ++ ',' :: post) =
        GenPart.inlineData (str "image/jpeg") (some (post.takeWhile (fun c => c != ',')))) ∧
    (pre.all (fun c => c != ',') = true →
      imagePart pre = GenPart.inlineData (str "image/jpeg") none) ∧
    imagePart (str "data:image/jpeg;base64,QUJDRA==") =
      GenPart.inlineData (str "image/jpeg") (some (str "QUJDRA==")) := by
  refine ⟨?_, ?_, by decide⟩
  · intro h
    unfold imagePart dataUriPayload
    rw [jsSplit_append ',' pre post h]
    have hh := jsSplit_head ',' post
    rw [List.head?_eq_getElem?] at hh
    simp [List.getElem?_cons_succ, hh]
  · intro h
    unfold imagePart dataUriPayload
    rw [jsSplit_no_sep ',' pre h]
    rfl
